import Mathlib

/-!
Shallow embedding of ai_pr_reviewer.py.

The script fetches the changed files of a pull request, asks a text
generation service for review prose, and posts the prose back: one inline
comment per changed file, anchored at the first added line of the file
patch.  The only real algorithm is find_first_changed_line, a scan over
the unified diff patch text.  Everything else is request/response
orchestration, embedded here with the two remote services as oracle
parameters and the observable behaviour captured as a trace of actions.
-/

namespace AiPrReviewer

/-- Python str.splitlines for the line terminators that occur in diff
text: a line break is one of LF, CRLF, CR, and a trailing terminator
does not produce a final empty line. -/
def splitlinesAux : List Char → List Char → List String
  | [], [] => []
  | [], acc => [String.mk acc.reverse]
  | '\r' :: '\n' :: rest, acc => String.mk acc.reverse :: splitlinesAux rest []
  | '\r' :: rest, acc => String.mk acc.reverse :: splitlinesAux rest []
  | '\n' :: rest, acc => String.mk acc.reverse :: splitlinesAux rest []
  | c :: rest, acc => splitlinesAux rest (c :: acc)

/-- Model of patch.splitlines() in find_first_changed_line. -/
def pySplitlines (s : String) : List String :=
  splitlinesAux s.data []

/-- Model of line.startswith(p): p is the marker spelled as a character
list, so that "+", "+++" and "-" become a one element and a three element
list. -/
def startswith (line : String) (p : List Char) : Bool :=
  List.isPrefixOf p line.data

/-- Consume an expected sequence of characters from the front of cs, or
fail.  Used for the literal parts of the hunk header pattern. -/
def stripPre : List Char → List Char → Option (List Char)
  | [], cs => some cs
  | _ :: _, [] => none
  | p :: ps, c :: cs => if c = p then stripPre ps cs else none

/-- Numeric value of a list of decimal digit characters, most significant
first; models int() applied to a digit group of the regex. -/
def digitsToNat (ds : List Char) : Nat :=
  ds.foldl (fun a c => a * 10 + (c.toNat - 48)) 0

/-- Consume one or more decimal digits (the regex atom for a digit group)
and return their value together with the rest of the input. -/
def parseNat (cs : List Char) : Option (Nat × List Char) :=
  let ds := cs.takeWhile Char.isDigit
  if ds.isEmpty then none
  else some (digitsToNat ds, cs.dropWhile Char.isDigit)

/-- Consume an optional comma followed by one or more digits, the
count part of a range in the hunk header.  When the comma is present but
no digit follows, the optional group matches the empty string, so the
input is returned unchanged. -/
def optComma (cs : List Char) : List Char :=
  match cs with
  | ',' :: rest =>
    if (rest.takeWhile Char.isDigit).isEmpty then cs
    else rest.dropWhile Char.isDigit
  | _ => cs

/-- Model of hunk_pattern.match(line) for the anchored regular expression
matching a hunk header: at sign, at sign, space, minus, digits, an
optional comma-digits group, space, plus, the captured digits, an
optional comma-digits group, space, at sign, at sign; anything may
follow.  Returns the captured new range start. -/
def hunkHeaderMatch (line : String) : Option Nat :=
  match stripPre ['@', '@', ' ', '-'] line.data with
  | none => none
  | some cs1 =>
    match parseNat cs1 with
    | none => none
    | some (_, cs2) =>
      match stripPre [' ', '+'] (optComma cs2) with
      | none => none
      | some cs4 =>
        match parseNat cs4 with
        | none => none
        | some (n, cs5) =>
          match stripPre [' ', '@', '@'] (optComma cs5) with
          | none => none
          | some _ => some n

/-- A line counts as an added content line when it starts with the plus
marker but is not the file header marker of three pluses. -/
def isAdded (line : String) : Bool :=
  startswith line ['+'] && !startswith line ['+', '+', '+']

/-- The loop body of find_first_changed_line: the state is the running
cursor line_num, None before the first matched header.  A matched header
resets the cursor to the new range start; after a header, an added line
returns the cursor, a removed line leaves it, any other line advances it
by one. -/
def findAux : Option Nat → List String → Option Nat
  | _, [] => none
  | line_num, line :: rest =>
    match hunkHeaderMatch line with
    | some s => findAux (some s) rest
    | none =>
      match line_num with
      | none => findAux none rest
      | some n =>
        if isAdded line then some n
        else if startswith line ['-'] then findAux (some n) rest
        else findAux (some (n + 1)) rest

/-- find_first_changed_line on a patch already split into lines. -/
def find_first_changed_line_lines (lines : List String) : Option Nat :=
  findAux none lines

/-- Model of find_first_changed_line(patch): parse the patch to find the
first line number in the new code, or None. -/
def find_first_changed_line (patch : String) : Option Nat :=
  find_first_changed_line_lines (pySplitlines patch)

/-! Orchestration.  The two remote services are oracle parameters: the
text generation call is a function from the diff text to an optional
reply, None meaning the call raised; the changed files request is an
optional file list, None meaning a non success status; posting a comment
yields a status code from an oracle.  The observable behaviour of a run
is the list of actions it performs. -/

/-- One changed file record from the files response: a filename and an
optional patch text. -/
structure FileRec where
  filename : String
  patch : Option String
  deriving DecidableEq

/-- Observable effects of a run: console output, the request listing the
changed files, a text generation call, a posted inline comment. -/
inductive Action where
  | logMsg (msg : String)
  | fetchCall
  | genCall (diff : String)
  | postComment (path : String) (line : Nat) (body : String) (commit : String)
  deriving DecidableEq

/-- Whitespace characters removed by str.strip(). -/
def isPySpace (c : Char) : Bool :=
  c = ' ' || c = '\t' || c = '\n' || c = '\r' || c = '\x0b' || c = '\x0c'

/-- Model of content.strip() applied to the generated reply. -/
def pyStrip (s : String) : String :=
  String.mk (((s.data.dropWhile isPySpace).reverse.dropWhile isPySpace).reverse)

/-- The fixed fallback comment body returned when generation fails. -/
def fallback_comment : String := "Unable to generate review comment."

/-- Model of generate_ai_review(diff_text): ask the generation oracle;
a reply is stripped and returned, any exception is caught and replaced
by the fixed fallback string. -/
def generate_ai_review (g : String → Option String) (diff_text : String) : String :=
  match g diff_text with
  | some content => pyStrip content
  | none => fallback_comment

/-- Model of get_changed_files: the fetch oracle stands for the files
request; a non success status (None) is logged and yields the empty
list.  Returns the file list and the performed actions. -/
def get_changed_files (fetch : Option (List FileRec)) :
    List FileRec × List Action :=
  match fetch with
  | none => ([], [Action.fetchCall, Action.logMsg "Error fetching changed files"])
  | some files => (files, [Action.fetchCall])

/-- Model of post_review_comment: locate the anchor line in the patch;
the guard `if not line_number` treats both None and the number 0 as the
absence of an anchor (Python falsiness), logs and returns without
posting.  Otherwise the comment is posted and the response status from
the oracle is logged. -/
def post_review_comment (repo : String) (pr_number : Int) (token : String)
    (comment_body commit_id file_path patch : String) (postStatus : Nat) :
    List Action :=
  match find_first_changed_line patch with
  | none => [Action.logMsg ("Could not determine changed line for " ++ file_path)]
  | some line_number =>
    if line_number = 0 then
      [Action.logMsg ("Could not determine changed line for " ++ file_path)]
    else
      Action.postComment file_path line_number comment_body commit_id ::
        (if postStatus = 201 then
          [Action.logMsg ("Inline comment posted on " ++ file_path)]
        else
          [Action.logMsg "Failed to post inline comment"])

/-- One iteration of the per file loop in main: the guard `if not patch`
skips a file whose patch is absent or, by Python falsiness, the empty
string, with a log and no generation call; otherwise a review is
generated for the patch and posted as an inline comment. -/
def process_file (g : String → Option String) (repo : String) (pr_number : Int)
    (token commit_id : String) (postStatus : Nat) (file : FileRec) : List Action :=
  match file.patch with
  | none => [Action.logMsg ("Skipping " ++ file.filename ++ " (no patch)")]
  | some patch =>
    if patch = "" then
      [Action.logMsg ("Skipping " ++ file.filename ++ " (no patch)")]
    else
      Action.logMsg ("Reviewing " ++ file.filename) ::
        Action.genCall patch ::
          post_review_comment repo pr_number token (generate_ai_review g patch)
            commit_id file.filename patch postStatus

/-- The per file loop of main, in document order. -/
def process_files (g : String → Option String) (repo : String) (pr_number : Int)
    (token commit_id : String) (postStatus : Nat) : List FileRec → List Action
  | [] => []
  | file :: rest =>
    process_file g repo pr_number token commit_id postStatus file ++
      process_files g repo pr_number token commit_id postStatus rest

/-- The head object of the pull request payload. -/
structure HeadData where
  sha : Option String
  deriving DecidableEq

/-- The pull_request object of the event payload; every field the script
reads is optional, as with dict.get. -/
structure PullRequestData where
  number : Option Int
  url : Option String
  head : Option HeadData
  deriving DecidableEq

/-- The event payload document. -/
structure EventData where
  pull_request : Option PullRequestData
  deriving DecidableEq

/-- The process environment variables the script reads. -/
structure Env where
  github_event_path : Option String
  github_repository : Option String
  github_token : Option String
  deriving DecidableEq

/-- Python truthiness of an optional string: None and the empty string
are falsy. -/
def truthyStr : Option String → Bool
  | none => false
  | some s => !(s == "")

/-- Python truthiness of an optional integer: None and 0 are falsy. -/
def truthyInt : Option Int → Bool
  | none => false
  | some n => !(n == 0)

/-- Model of pr.get("head", an empty dict).get("sha"). -/
def commit_of (pr : PullRequestData) : Option String :=
  match pr.head with
  | none => none
  | some h => h.sha

/-- Model of main: read the environment and the event payload, validate
the required fields, fetch the changed files and run the per file loop.
The readEvent oracle stands for loading the JSON document at the event
path. -/
def main (env : Env) (readEvent : String → EventData)
    (fetch : Option (List FileRec)) (g : String → Option String)
    (postStatus : Nat) : List Action :=
  match env.github_event_path with
  | none => [Action.logMsg "GITHUB_EVENT_PATH is not set."]
  | some event_path =>
    if event_path = "" then [Action.logMsg "GITHUB_EVENT_PATH is not set."]
    else
      match (readEvent event_path).pull_request with
      | none => [Action.logMsg "No pull_request data found."]
      | some pr =>
        if truthyInt pr.number && truthyStr pr.url && truthyStr (commit_of pr)
            && truthyStr env.github_repository && truthyStr env.github_token then
          let fr := get_changed_files fetch
          if fr.1.isEmpty then
            fr.2 ++ [Action.logMsg "No changed files detected."]
          else
            fr.2 ++ process_files g (env.github_repository.getD "")
              (pr.number.getD 0) (env.github_token.getD "")
              ((commit_of pr).getD "") postStatus fr.1
        else
          [Action.logMsg "Missing required environment variables."]

/-- A run configuration misses a required input: the access token or the
repository identifier is absent from the environment (or empty), or the
payload has no pull_request object, or the pull request misses its
number, url or head sha (Python falsiness throughout). -/
def required_missing (env : Env) (ed : EventData) : Prop :=
  truthyStr env.github_token = false ∨
  truthyStr env.github_repository = false ∨
  ed.pull_request = none ∨
  ∃ pr, ed.pull_request = some pr ∧
    (truthyInt pr.number = false ∨ truthyStr pr.url = false ∨
      truthyStr (commit_of pr) = false)

/-! Step lemmas for the scan. -/

/-- A matched header resets the cursor to the captured new range start,
whatever the previous state. -/
lemma findAux_cons_header {l : String} {s : Nat} (st : Option Nat)
    (ls : List String) (hm : hunkHeaderMatch l = some s) :
    findAux st (l :: ls) = findAux (some s) ls := by
  cases st <;> simp [findAux, hm]

/-- Before the first matched header every non header line is skipped. -/
lemma findAux_cons_skip {l : String} (ls : List String)
    (hm : hunkHeaderMatch l = none) :
    findAux none (l :: ls) = findAux none ls := by
  simp [findAux, hm]

/-- After a header, an added line returns the cursor. -/
lemma findAux_cons_added {l : String} {n : Nat} (ls : List String)
    (hm : hunkHeaderMatch l = none) (ha : isAdded l = true) :
    findAux (some n) (l :: ls) = some n := by
  simp [findAux, hm, ha]

/-- After a header, a removed line leaves the cursor untouched. -/
lemma findAux_cons_removed {l : String} {n : Nat} (ls : List String)
    (hm : hunkHeaderMatch l = none) (ha : isAdded l = false)
    (hr : startswith l ['-'] = true) :
    findAux (some n) (l :: ls) = findAux (some n) ls := by
  simp [findAux, hm, ha, hr]

/-- After a header, any other line advances the cursor by one. -/
lemma findAux_cons_ctx {l : String} {n : Nat} (ls : List String)
    (hm : hunkHeaderMatch l = none) (ha : isAdded l = false)
    (hr : startswith l ['-'] = false) :
    findAux (some n) (l :: ls) = findAux (some (n + 1)) ls := by
  simp [findAux, hm, ha, hr]

/-- A line starting with the plus character cannot match the hunk header
pattern, whose first character is an at sign. -/
lemma plus_no_header {l : String} (h : startswith l ['+'] = true) :
    hunkHeaderMatch l = none := by
  unfold startswith at h
  unfold hunkHeaderMatch
  cases hd : l.data with
  | nil => rw [hd] at h; simp [List.isPrefixOf] at h
  | cons c t =>
    rw [hd] at h
    simp [List.isPrefixOf] at h
    rw [← h]
    rfl

/-- The head character of a line determines its first marker: a line
whose data starts with a character other than the minus sign is not a
removed line. -/
lemma not_removed_of_head {l : String} {c : Char} {t : List Char}
    (hd : l.data = c :: t) (hc : c ≠ '-') :
    startswith l ['-'] = false := by
  unfold startswith
  rw [hd]
  simp [List.isPrefixOf]
  intro hcontra
  exact absurd hcontra.symm hc

/-- A line starting with the at sign cannot be an added or a removed
line. -/
lemma at_not_added {l : String} (h : startswith l ['@', '@'] = true) :
    isAdded l = false ∧ startswith l ['-'] = false := by
  unfold startswith at h
  cases hd : l.data with
  | nil => rw [hd] at h; simp [List.isPrefixOf] at h
  | cons c t =>
    rw [hd] at h
    simp [List.isPrefixOf] at h
    refine ⟨?_, not_removed_of_head hd (by rw [← h.1]; decide)⟩
    unfold isAdded startswith
    rw [hd, ← h.1]
    rfl

/-- A line starting with three pluses is not an added content line, does
not match the header pattern and is not a removed line. -/
lemma tripleplus_classify {l : String}
    (h : startswith l ['+', '+', '+'] = true) :
    isAdded l = false ∧ hunkHeaderMatch l = none ∧
      startswith l ['-'] = false := by
  have h1 : startswith l ['+'] = true := by
    unfold startswith at h ⊢
    cases hd : l.data with
    | nil => rw [hd] at h; simp [List.isPrefixOf] at h
    | cons c t =>
      rw [hd] at h
      simp [List.isPrefixOf] at h ⊢
      exact h.1
  refine ⟨by simp [isAdded, h, h1], plus_no_header h1, ?_⟩
  unfold startswith at h1
  cases hd : l.data with
  | nil => rw [hd] at h1; simp [List.isPrefixOf] at h1
  | cons c t =>
    rw [hd] at h1
    simp [List.isPrefixOf] at h1
    exact not_removed_of_head hd (by rw [← h1]; decide)

/-- If no line of the list is an added line, the scan never returns,
whatever the state. -/
lemma findAux_no_added {ls : List String}
    (h : ∀ l ∈ ls, isAdded l = false) :
    ∀ st, findAux st ls = none := by
  induction ls with
  | nil => intro st; rfl
  | cons l ls ih =>
    intro st
    have hl := h l (List.mem_cons_self l ls)
    have hrest : ∀ x ∈ ls, isAdded x = false :=
      fun x hx => h x (List.mem_cons_of_mem l hx)
    cases hm : hunkHeaderMatch l with
    | some s => rw [findAux_cons_header st ls hm]; exact ih hrest _
    | none =>
      cases st with
      | none => rw [findAux_cons_skip ls hm]; exact ih hrest _
      | some n =>
        cases hr : startswith l ['-'] with
        | true => rw [findAux_cons_removed ls hm hl hr]; exact ih hrest _
        | false => rw [findAux_cons_ctx ls hm hl hr]; exact ih hrest _

/-- If no line of the list matches the header pattern, the scan started
before any header stays before any header and returns nothing. -/
lemma findAux_no_header {ls : List String}
    (h : ∀ l ∈ ls, hunkHeaderMatch l = none) :
    findAux none ls = none := by
  induction ls with
  | nil => rfl
  | cons l ls ih =>
    rw [findAux_cons_skip ls (h l (List.mem_cons_self l ls))]
    exact ih fun x hx => h x (List.mem_cons_of_mem l hx)

/-- Counting lemma: after a matched header set the cursor to n; a block
of lines that are neither added nor removed nor headers advances the
cursor by its length, and a following added line returns the total. -/
lemma findAux_count {mid : List String} {a : String}
    (hmid : ∀ l ∈ mid, hunkHeaderMatch l = none ∧ isAdded l = false ∧
      startswith l ['-'] = false)
    (ha : isAdded a = true) (rest : List String) :
    ∀ n, findAux (some n) (mid ++ a :: rest) = some (n + mid.length) := by
  induction mid with
  | nil =>
    intro n
    have hma : hunkHeaderMatch a = none := by
      apply plus_no_header
      have := ha
      unfold isAdded at this
      exact (Bool.and_eq_true_iff.mp this).1
    simpa using findAux_cons_added rest hma ha
  | cons l mid ih =>
    intro n
    have hl := hmid l (List.mem_cons_self l mid)
    have hrest : ∀ x ∈ mid, hunkHeaderMatch x = none ∧ isAdded x = false ∧
        startswith x ['-'] = false :=
      fun x hx => hmid x (List.mem_cons_of_mem l hx)
    rw [List.cons_append, findAux_cons_ctx _ hl.1 hl.2.1 hl.2.2, ih hrest]
    simp [Nat.add_assoc, Nat.add_comm 1 mid.length]

/-- A block of lines containing no added line never makes the scan
return; the scan of the concatenation continues into the suffix (with
some state). -/
lemma findAux_append_no_added {xs : List String}
    (hxs : ∀ l ∈ xs, isAdded l = false) (ys : List String) :
    ∀ st, ∃ st2, findAux st (xs ++ ys) = findAux st2 ys := by
  induction xs with
  | nil => intro st; exact ⟨st, rfl⟩
  | cons l xs ih =>
    intro st
    have hl := hxs l (List.mem_cons_self l xs)
    have hrest : ∀ x ∈ xs, isAdded x = false :=
      fun x hx => hxs x (List.mem_cons_of_mem l hx)
    cases hm : hunkHeaderMatch l with
    | some s =>
      rw [List.cons_append, findAux_cons_header st _ hm]
      exact ih hrest _
    | none =>
      cases st with
      | none =>
        rw [List.cons_append, findAux_cons_skip _ hm]
        exact ih hrest _
      | some n =>
        cases hr : startswith l ['-'] with
        | true =>
          rw [List.cons_append, findAux_cons_removed _ hm hl hr]
          exact ih hrest _
        | false =>
          rw [List.cons_append, findAux_cons_ctx _ hm hl hr]
          exact ih hrest _

/-- Scanning a block with no added line followed by a matching header
is the same as starting right after that header. -/
lemma findAux_append_header {xs : List String} {h2 : String} {s2 : Nat}
    (hxs : ∀ l ∈ xs, isAdded l = false)
    (hh2 : hunkHeaderMatch h2 = some s2) (body2 : List String)
    (st : Option Nat) :
    findAux st (xs ++ h2 :: body2) = findAux (some s2) body2 := by
  obtain ⟨st2, heq⟩ := findAux_append_no_added hxs (h2 :: body2) st
  rw [heq, findAux_cons_header st2 body2 hh2]

/-! Claim theorems. -/

/-- Claim C1: for a patch whose lines are a matched hunk header with new
range start s, then (before any later header) a block of lines that are
neither added nor removed, then an added line, find_first_changed_line
returns s plus the length of the block, that is new_range_start + k - 1
when the added line is the k-th line after the header. -/
theorem C1_first_added_line_number (patch hdr a : String)
    (pre mid rest : List String) (s : Nat)
    (hsplit : pySplitlines patch = pre ++ hdr :: (mid ++ a :: rest))
    (hpre : ∀ l ∈ pre, isAdded l = false)
    (hh : hunkHeaderMatch hdr = some s)
    (hmid : ∀ l ∈ mid, hunkHeaderMatch l = none ∧ isAdded l = false ∧
      startswith l ['-'] = false)
    (ha : isAdded a = true) :
    find_first_changed_line patch = some (s + mid.length) := by
  unfold find_first_changed_line find_first_changed_line_lines
  rw [hsplit, findAux_append_header hpre hh (mid ++ a :: rest) none,
    findAux_count hmid ha rest s]

/-- Claim C1 witness: the concrete patch of the claim, a header with new
range start 20 followed by one context line and one added line, yields
line 21. -/
theorem C1_witness :
    find_first_changed_line "@@ -10,3 +20,4 @@\n ctx\n+new" = some 21 :=
  C1_first_added_line_number "@@ -10,3 +20,4 @@\n ctx\n+new"
    "@@ -10,3 +20,4 @@" "+new" [] [" ctx"] [] 20
    (by decide) (by decide) (by decide) (by decide) (by decide)

/-- Claim C2 counterexample: a malformed header line does not leave the
running cursor untouched.  In the patch with header new range start 5, a
malformed header line, then an added line, the parser returns 6, while on
the patch with the malformed line deleted it returns 5: the two results
differ, refuting the claim that the result equals the result on the patch
with the malformed line deleted. -/
theorem C2_counterexample :
    find_first_changed_line "@@ -1,2 +5,2 @@\n@@ malformed @@\n+x" = some 6 ∧
    find_first_changed_line "@@ -1,2 +5,2 @@\n+x" = some 5 ∧
    find_first_changed_line "@@ -1,2 +5,2 @@\n@@ malformed @@\n+x" ≠
      find_first_changed_line "@@ -1,2 +5,2 @@\n+x" := by
  refine ⟨rfl, rfl, ?_⟩
  decide

/-- Claim C2 amended: a line that looks like a hunk header (it starts
with two at signs) but does not match the pattern is never treated as a
header and never raises an error; before the first matched header the
scan skips it with no effect, but after a matched header it advances the
running cursor by one, exactly like a context line (so the result can
differ from the patch with that line deleted). -/
theorem C2_malformed_header_is_context (l : String) (n : Nat)
    (ls : List String) (hlook : startswith l ['@', '@'] = true)
    (hm : hunkHeaderMatch l = none) :
    findAux none (l :: ls) = findAux none ls ∧
    findAux (some n) (l :: ls) = findAux (some (n + 1)) ls := by
  obtain ⟨hadd, hrem⟩ := at_not_added hlook
  exact ⟨findAux_cons_skip ls hm, findAux_cons_ctx ls hm hadd hrem⟩

/-- Claim C2 amended witness: the malformed line of the counterexample,
after a header that set the cursor to 5, behaves as a context line. -/
theorem C2_malformed_witness :
    findAux none ["@@ malformed @@", "+x"] = findAux none ["+x"] ∧
    findAux (some 5) ["@@ malformed @@", "+x"] = findAux (some 6) ["+x"] :=
  C2_malformed_header_is_context "@@ malformed @@" 5 ["+x"]
    (by decide) (by decide)

/-- Claim C3: in a patch made of a first block with no added line (for
example a first hunk that is a pure deletion, with its header) followed
by a second matched hunk header and its body, the parser result equals
the result on the second hunk alone: the answer comes from the second
hunk header, and any matched header resets the cursor to its new range
start whatever the previous state. -/
theorem C3_second_hunk (xs body2 : List String) (h2 : String) (s2 : Nat)
    (hxs : ∀ l ∈ xs, isAdded l = false)
    (hh2 : hunkHeaderMatch h2 = some s2) :
    find_first_changed_line_lines (xs ++ h2 :: body2) =
      find_first_changed_line_lines (h2 :: body2) ∧
    ∀ st, findAux st (h2 :: body2) = findAux (some s2) body2 := by
  constructor
  · unfold find_first_changed_line_lines
    rw [findAux_append_header hxs hh2 body2 none,
      findAux_cons_header none body2 hh2]
  · intro st
    exact findAux_cons_header st body2 hh2

/-- Claim C3 witness: a first hunk that is a pure deletion followed by a
second hunk with an added line; the result 10 comes from the second
header with new range start 9 plus one context line. -/
theorem C3_witness :
    find_first_changed_line_lines
      ["@@ -1,2 +1,1 @@", " ctx", "-gone", "@@ -10,2 +9,3 @@", " c", "+new"] =
      find_first_changed_line_lines ["@@ -10,2 +9,3 @@", " c", "+new"] ∧
    find_first_changed_line_lines
      ["@@ -1,2 +1,1 @@", " ctx", "-gone", "@@ -10,2 +9,3 @@", " c", "+new"] =
      some 10 := by
  have h := C3_second_hunk ["@@ -1,2 +1,1 @@", " ctx", "-gone"]
    [" c", "+new"] "@@ -10,2 +9,3 @@" 9 (by decide) (by decide)
  exact ⟨h.1, by decide⟩

/-- Claim C4: a line beginning with three pluses (the diff file header
marker) is never the returned added line even though it starts with a
plus: it does not satisfy the added line test, and in the scan it behaves
exactly like a context line, advancing the cursor by one after a matched
header and being skipped before one. -/
theorem C4_file_header_marker (l : String) (n : Nat) (ls : List String)
    (h : startswith l ['+', '+', '+'] = true) :
    isAdded l = false ∧
    findAux (some n) (l :: ls) = findAux (some (n + 1)) ls ∧
    findAux none (l :: ls) = findAux none ls := by
  obtain ⟨hadd, hm, hrem⟩ := tripleplus_classify h
  exact ⟨hadd, findAux_cons_ctx ls hm hadd hrem, findAux_cons_skip ls hm⟩

/-- Claim C4 witness: the file header line of a diff is not an added
line and advances the cursor from 3 to 4. -/
theorem C4_witness :
    isAdded "+++ b/f.py" = false ∧
    findAux (some 3) ["+++ b/f.py", "+x"] = findAux (some 4) ["+x"] ∧
    findAux none ["+++ b/f.py", "+x"] = findAux none ["+x"] :=
  C4_file_header_marker "+++ b/f.py" 3 ["+x"] (by decide)

/-- Claim C5: a patch with no line matching the hunk header pattern, or
with no added line at all (only removed and context lines after the
headers), makes find_first_changed_line return None; the function is
total, so no error is raised. -/
theorem C5_no_target_line (patch : String)
    (h : (∀ l ∈ pySplitlines patch, hunkHeaderMatch l = none) ∨
      (∀ l ∈ pySplitlines patch, isAdded l = false)) :
    find_first_changed_line patch = none := by
  unfold find_first_changed_line find_first_changed_line_lines
  cases h with
  | inl hh => exact findAux_no_header hh
  | inr ha => exact findAux_no_added ha none

/-- Claim C5 witness: a pure deletion patch (header, context, removed
line) yields None, and so does a patch with no header at all. -/
theorem C5_witness :
    find_first_changed_line "@@ -1,2 +1,1 @@\n ctx\n-gone" = none ∧
    find_first_changed_line "no header\n+x" = none :=
  ⟨C5_no_target_line "@@ -1,2 +1,1 @@\n ctx\n-gone" (Or.inr (by decide)),
   C5_no_target_line "no header\n+x" (Or.inl (by decide))⟩

/-- Claim C6: a changed file with a present, nonempty patch (a file with
an absent or empty patch is "no patch" and skipped by the loop guard)
that contains no added line still gets a review generated (the
generation call appears in the trace), but no inline comment is posted
for it, only the log of the unlocatable anchor; no error is raised, and
the remaining files are processed exactly as before, the trace of the
run being the concatenation of the per file traces. -/
theorem C6_no_added_line_skips_comment (g : String → Option String)
    (repo : String) (pr_number : Int) (token commit_id name p : String)
    (ps : Nat) (rest : List FileRec) (hne : p ≠ "")
    (h : ∀ l ∈ pySplitlines p, isAdded l = false) :
    process_file g repo pr_number token commit_id ps ⟨name, some p⟩ =
      [Action.logMsg ("Reviewing " ++ name), Action.genCall p,
       Action.logMsg ("Could not determine changed line for " ++ name)] ∧
    process_files g repo pr_number token commit_id ps
        (⟨name, some p⟩ :: rest) =
      process_file g repo pr_number token commit_id ps ⟨name, some p⟩ ++
        process_files g repo pr_number token commit_id ps rest := by
  have hfind : find_first_changed_line p = none := by
    unfold find_first_changed_line find_first_changed_line_lines
    exact findAux_no_added h none
  exact ⟨by simp [process_file, post_review_comment, hfind, hne], rfl⟩

/-- Claim C6 witness: a pure deletion patch in a two file run. -/
theorem C6_witness :
    process_file (fun _ => some "ok") "r" 1 "t" "sha" 201
        ⟨"f.py", some "@@ -1,2 +1,1 @@\n ctx\n-gone"⟩ =
      [Action.logMsg "Reviewing f.py",
       Action.genCall "@@ -1,2 +1,1 @@\n ctx\n-gone",
       Action.logMsg "Could not determine changed line for f.py"] ∧
    process_files (fun _ => some "ok") "r" 1 "t" "sha" 201
        (⟨"f.py", some "@@ -1,2 +1,1 @@\n ctx\n-gone"⟩ ::
          [⟨"g.py", some "@@ -1 +1,2 @@\n+x"⟩]) =
      process_file (fun _ => some "ok") "r" 1 "t" "sha" 201
          ⟨"f.py", some "@@ -1,2 +1,1 @@\n ctx\n-gone"⟩ ++
        process_files (fun _ => some "ok") "r" 1 "t" "sha" 201
          [⟨"g.py", some "@@ -1 +1,2 @@\n+x"⟩] :=
  C6_no_added_line_skips_comment (fun _ => some "ok") "r" 1 "t" "sha"
    "f.py" "@@ -1,2 +1,1 @@\n ctx\n-gone" 201
    [⟨"g.py", some "@@ -1 +1,2 @@\n+x"⟩] (by decide) (by decide)

/-- Claim C7: when the generation oracle fails on a diff (the call
raises), generate_ai_review returns exactly the fixed fallback string,
and the run continues: for a file with that diff as patch and a
locatable nonzero anchor line, the posted inline comment carries the
fallback string as its body. -/
theorem C7_generation_fallback (g : String → Option String) (diff : String)
    (hg : g diff = none) :
    generate_ai_review g diff = "Unable to generate review comment." ∧
    ∀ (repo : String) (pr_number : Int) (token commit_id name : String)
      (ps n : Nat), find_first_changed_line diff = some n → n ≠ 0 →
      Action.postComment name n "Unable to generate review comment."
          commit_id ∈
        process_file g repo pr_number token commit_id ps
          ⟨name, some diff⟩ := by
  have hgen : generate_ai_review g diff = "Unable to generate review comment." := by
    unfold generate_ai_review
    rw [hg]
    rfl
  refine ⟨hgen, ?_⟩
  intro repo pr_number token commit_id name ps n hfind hn
  have hne : diff ≠ "" := by
    intro he
    rw [he, show find_first_changed_line "" = none from rfl] at hfind
    exact Option.noConfusion hfind
  simp [process_file, post_review_comment, hfind, hn, hgen, hne]

/-- Claim C7 witness: an always failing oracle on a one hunk patch with
anchor line 3. -/
theorem C7_witness :
    generate_ai_review (fun _ => none) "@@ -1 +3,2 @@\n+x" =
      "Unable to generate review comment." ∧
    Action.postComment "f.py" 3 "Unable to generate review comment." "sha" ∈
      process_file (fun _ => none) "r" 1 "t" "sha" 201
        ⟨"f.py", some "@@ -1 +3,2 @@\n+x"⟩ := by
  have h := C7_generation_fallback (fun _ => none) "@@ -1 +3,2 @@\n+x" rfl
  exact ⟨h.1, h.2 "r" 1 "t" "sha" "f.py" 201 3 (by decide) (by decide)⟩

/-- Claim C8: when the event payload misses the pull_request object or
one of its required fields (number, url, head sha), or the environment
misses the repository identifier or the access token, main produces a
single console error and stops: in particular no fetch, no generation
call and no posted comment appear in the trace. -/
theorem C8_missing_config_aborts (env : Env) (readEvent : String → EventData)
    (fetch : Option (List FileRec)) (g : String → Option String) (ps : Nat)
    (h : required_missing env (readEvent (env.github_event_path.getD ""))) :
    ∃ m, main env readEvent fetch g ps = [Action.logMsg m] := by
  unfold main
  cases hep : env.github_event_path with
  | none => exact ⟨_, rfl⟩
  | some ep =>
    rw [hep] at h
    simp only [Option.getD] at h
    by_cases he : ep = ""
    · simp [he]
    · simp only [he, if_false]
      cases hpr : (readEvent ep).pull_request with
      | none => simp
      | some pr =>
        simp only []
        rcases h with ht | hr | hnone | ⟨pr2, hpr2, hfield⟩
        · simp [ht]
        · simp [hr]
        · rw [hpr] at hnone
          exact absurd hnone (by simp)
        · rw [hpr] at hpr2
          obtain rfl : pr = pr2 := by injection hpr2
          rcases hfield with hn | hu | hc
          · simp [hn]
          · simp [hu]
          · simp [hc]

/-- Claim C8 witness: a run with the access token absent from the
environment aborts with one console error. -/
theorem C8_witness :
    ∃ m, main ⟨some "evt.json", some "o/r", none⟩
        (fun _ => ⟨some ⟨some 1, some "u", some ⟨some "sha"⟩⟩⟩)
        (some []) (fun _ => some "ok") 201 = [Action.logMsg m] :=
  C8_missing_config_aborts ⟨some "evt.json", some "o/r", none⟩
    (fun _ => ⟨some ⟨some 1, some "u", some ⟨some "sha"⟩⟩⟩)
    (some []) (fun _ => some "ok") 201 (Or.inl rfl)

/-- Claim C9: when the request listing the changed files reports a non
success status, get_changed_files logs the error and returns the empty
list, and main treats this as zero changed files: the run ends with the
corresponding console messages and neither generates nor posts
anything. -/
theorem C9_fetch_failure_is_soft (env : Env)
    (readEvent : String → EventData) (g : String → Option String) (ps : Nat)
    (ep : String) (pr : PullRequestData)
    (hep : env.github_event_path = some ep) (hne : ep ≠ "")
    (hpr : (readEvent ep).pull_request = some pr)
    (hn : truthyInt pr.number = true) (hu : truthyStr pr.url = true)
    (hc : truthyStr (commit_of pr) = true)
    (hr : truthyStr env.github_repository = true)
    (ht : truthyStr env.github_token = true) :
    get_changed_files none =
      ([], [Action.fetchCall, Action.logMsg "Error fetching changed files"]) ∧
    main env readEvent none g ps =
      [Action.fetchCall, Action.logMsg "Error fetching changed files",
       Action.logMsg "No changed files detected."] := by
  refine ⟨rfl, ?_⟩
  unfold main
  rw [hep]
  simp [hne, hpr, hn, hu, hc, hr, ht, get_changed_files]

/-- Claim C9 witness: a concrete valid configuration with a failing
files request. -/
theorem C9_witness :
    get_changed_files none =
      ([], [Action.fetchCall, Action.logMsg "Error fetching changed files"]) ∧
    main ⟨some "evt.json", some "o/r", some "tok"⟩
        (fun _ => ⟨some ⟨some 1, some "u", some ⟨some "sha"⟩⟩⟩)
        none (fun _ => some "ok") 201 =
      [Action.fetchCall, Action.logMsg "Error fetching changed files",
       Action.logMsg "No changed files detected."] :=
  C9_fetch_failure_is_soft ⟨some "evt.json", some "o/r", some "tok"⟩
    (fun _ => ⟨some ⟨some 1, some "u", some ⟨some "sha"⟩⟩⟩)
    (fun _ => some "ok") 201 "evt.json" ⟨some 1, some "u", some ⟨some "sha"⟩⟩
    rfl (by decide) rfl (by decide) (by decide) (by decide) (by decide)
    (by decide)

/-- Claim C10: post_review_comment posts an inline comment exactly when
find_first_changed_line returns a nonzero line number, because the guard
mirrors Python falsiness where 0 and None coincide; concretely a matched
header with new range start 0 immediately followed by an added line makes
the parser return 0 and the comment is silently skipped with only the
unlocatable anchor log. -/
theorem C10_posts_iff_nonzero_line (repo : String) (pr_number : Int)
    (token body commit path patch : String) (ps : Nat) :
    ((∃ ln b c, Action.postComment path ln b c ∈
        post_review_comment repo pr_number token body commit path patch ps) ↔
      (∃ n, find_first_changed_line patch = some n ∧ n ≠ 0)) ∧
    find_first_changed_line "@@ -1 +0,0 @@\n+x" = some 0 ∧
    post_review_comment repo pr_number token body commit path
        "@@ -1 +0,0 @@\n+x" ps =
      [Action.logMsg ("Could not determine changed line for " ++ path)] := by
  refine ⟨?_, rfl, ?_⟩
  · cases hf : find_first_changed_line patch with
    | none => simp [post_review_comment, hf]
    | some n =>
      by_cases hn : n = 0
      · subst hn
        simp [post_review_comment, hf]
      · simp [post_review_comment, hf, hn]
        exact ⟨n, body, commit, Or.inl ⟨rfl, rfl, rfl⟩⟩
  · have h0 : find_first_changed_line "@@ -1 +0,0 @@\n+x" = some 0 := rfl
    simp [post_review_comment, h0]

end AiPrReviewer
